import Mathlib

/-!
# FlareFTSOPriceOracle — shallow embedding and verification

Shallow embedding of `src/contracts/FlareFTSOPriceOracle.sol` (Solidity ^0.8.19).
Contract storage is a record; external view/mutating functions become Lean
functions over that record.  Solidity ^0.8 checked arithmetic on `uint256`
(revert on overflow/underflow, Panic 0x11) is made explicit via `Except`;
the explicit `int256(...)` cast is unchecked and wraps, which is also
modelled explicitly.  `require` failures become `revert` errors carrying the
source's message string; an EVM revert rolls the whole call's storage writes
back, so a mutating entry point returning `.error` leaves the pre-state in
force (made explicit by the `run…` wrappers below).
-/

/-- One entry of the contract's `PriceData` struct:
`{ uint256 price; uint256 timestamp; uint256 epochId; }`. -/
structure PriceData where
  price : Nat
  timestamp : Nat
  epochId : Nat
deriving DecidableEq, Repr

/-- Outcome of a reverting EVM call: a `require` failure with its message
string, or a checked-arithmetic failure (Solidity Panic, code 0x11 = 17). -/
inductive EvmError where
  | revert (msg : String)
  | arithmeticError (code : Nat)
deriving DecidableEq, Repr

/-- `2^256`, the modulus of `uint256`. -/
def UINT256_MOD : Nat := 2 ^ 256

/-- Checked `uint256` subtraction (Solidity ^0.8): reverts with Panic 0x11
on underflow. -/
def checkedSub (a b : Nat) : Except EvmError Nat :=
  if b ≤ a then .ok (a - b) else .error (.arithmeticError 17)

/-- Checked `uint256` multiplication (Solidity ^0.8): reverts with Panic 0x11
on overflow past `2^256 - 1`. -/
def checkedMul (a b : Nat) : Except EvmError Nat :=
  if a * b < UINT256_MOD then .ok (a * b) else .error (.arithmeticError 17)

/-- The explicit cast `int256(x)` applied to a `uint256` value `x`:
unchecked, reinterprets the 256-bit pattern in two's complement. -/
def intFromUint256 (x : Nat) : Int :=
  if x < 2 ^ 255 then (x : Int) else (x : Int) - (UINT256_MOD : Int)

/-- Contract storage of `FlareFTSOPriceOracle`.  The two `mapping`s are
total functions with the EVM default (empty array / zero) for untouched
keys; addresses are modelled as naturals with `0` the zero address.
`owner` is the `Ownable` owner slot (set to the deployer). -/
structure OracleState where
  ftsoRegistry : Nat
  ftsoManager : Nat
  priceHistory : String → List PriceData
  lastUpdateTime : String → Nat
  owner : Nat

/-- `MAX_HISTORY_LENGTH = 24` (store 24 hourly prices). -/
def MAX_HISTORY_LENGTH : Nat := 24

/-- `PRICE_VALIDITY_PERIOD = 24 hours` (in seconds). -/
def PRICE_VALIDITY_PERIOD : Nat := 24 * 3600

/-- The constructor: requires both addresses nonzero, then stores them;
`Ownable()` sets `owner` to the deployer. Mappings start empty/zero. -/
def constructorOracle (deployer ftsoRegistryAddr ftsoManagerAddr : Nat) :
    Except EvmError OracleState :=
  if ftsoRegistryAddr = 0 then .error (.revert "Invalid FTSO Registry address")
  else if ftsoManagerAddr = 0 then .error (.revert "Invalid FTSO Manager address")
  else .ok { ftsoRegistry := ftsoRegistryAddr
             ftsoManager := ftsoManagerAddr
             priceHistory := fun _ => []
             lastUpdateTime := fun _ => 0
             owner := deployer }

/-- The left-shift loop of `updatePriceData`
(`for i = 0; i < length-1; i++: history[i] = history[i+1]`): each slot is
overwritten, in ascending order, by the value of the following slot, so
slot `i` receives the original value of slot `i+1` and the last slot keeps
its value.  The recursion performs one loop iteration per step: head slot
receives the next slot's value, then the loop continues from the next slot. -/
def shiftLeft : List PriceData → List PriceData
  | [] => []
  | [x] => [x]
  | _ :: y :: rest => y :: shiftLeft (y :: rest)

/-- `updatePriceData(symbol)` after the external reads: the FTSO registry
supplied `(price, timestamp)`, the FTSO manager supplied `currentEpochId`,
and `block.timestamp` is `now`.  If the history is at (or past) capacity,
the shift loop drops the oldest entry and `pop()` removes the duplicated
last slot; then the new sample is pushed and `lastUpdateTime[symbol]` is
set to `block.timestamp`. -/
def updatePriceData (s : OracleState) (symbol : String)
    (price timestamp currentEpochId now : Nat) : OracleState :=
  let history := s.priceHistory symbol
  let history :=
    if MAX_HISTORY_LENGTH ≤ history.length then (shiftLeft history).dropLast
    else history
  let history := history ++ [⟨price, timestamp, currentEpochId⟩]
  { s with
    priceHistory := fun sym => if sym = symbol then history else s.priceHistory sym
    lastUpdateTime := fun sym => if sym = symbol then now else s.lastUpdateTime sym }

/-- `getPriceHistory(symbol)`: copies the symbol's stored samples, in
storage order, into three parallel arrays `(prices, timestamps, epochIds)`.
Never reverts; an untouched symbol yields three empty arrays. -/
def getPriceHistory (s : OracleState) (symbol : String) :
    List Nat × List Nat × List Nat :=
  let history := s.priceHistory symbol
  (history.map PriceData.price, history.map PriceData.timestamp,
   history.map PriceData.epochId)

/-- `getLatestPriceData(symbol)`: requires a nonempty history, then returns
the fields of `history[history.length - 1]`. -/
def getLatestPriceData (s : OracleState) (symbol : String) :
    Except EvmError (Nat × Nat × Nat) :=
  let history := s.priceHistory symbol
  if 0 < history.length then
    let latest := history.getD (history.length - 1) ⟨0, 0, 0⟩
    .ok (latest.price, latest.timestamp, latest.epochId)
  else .error (.revert "No price data available")

/-- `needsUpdate(symbol)` at `block.timestamp = now`:
`(block.timestamp - lastUpdateTime[symbol]) >= 1 hours`, with the checked
`uint256` subtraction made explicit. -/
def needsUpdate (s : OracleState) (symbol : String) (now : Nat) :
    Except EvmError Bool :=
  match checkedSub now (s.lastUpdateTime symbol) with
  | .error e => .error e
  | .ok elapsed => .ok (3600 ≤ elapsed)

/-- `get24hPriceChange(symbol)`: requires `history.length > 1`; reads
`currentPrice = history[length-1].price` and `oldestPrice = history[0].price`;
returns `0` when `oldestPrice == 0`; otherwise computes
`int256((currentPrice * 10000 / oldestPrice) - 10000)` — note the
multiplication and the subtraction are checked `uint256` operations
performed *before* the cast, so the subtraction reverts (Panic 0x11)
whenever `currentPrice * 10000 / oldestPrice < 10000`. -/
def get24hPriceChange (s : OracleState) (symbol : String) :
    Except EvmError Int :=
  let history := s.priceHistory symbol
  if 1 < history.length then
    let currentPrice := (history.getD (history.length - 1) ⟨0, 0, 0⟩).price
    let oldestPrice := (history.getD 0 ⟨0, 0, 0⟩).price
    if oldestPrice = 0 then .ok 0
    else
      match checkedMul currentPrice 10000 with
      | .error e => .error e
      | .ok scaled =>
        match checkedSub (scaled / oldestPrice) 10000 with
        | .error e => .error e
        | .ok change => .ok (intFromUint256 change)
  else .error (.revert "Insufficient price history")

/-- `updateFtsoRegistry(_newRegistry)` invoked by `caller` (`msg.sender`):
the `onlyOwner` modifier checks ownership first, then the body requires a
nonzero address and stores it. -/
def updateFtsoRegistry (s : OracleState) (caller newRegistry : Nat) :
    Except EvmError OracleState :=
  if caller ≠ s.owner then .error (.revert "Ownable: caller is not the owner")
  else if newRegistry = 0 then .error (.revert "Invalid address")
  else .ok { s with ftsoRegistry := newRegistry }

/-- `updateFtsoManager(_newManager)` invoked by `caller` (`msg.sender`):
`onlyOwner` first, then nonzero check, then store. -/
def updateFtsoManager (s : OracleState) (caller newManager : Nat) :
    Except EvmError OracleState :=
  if caller ≠ s.owner then .error (.revert "Ownable: caller is not the owner")
  else if newManager = 0 then .error (.revert "Invalid address")
  else .ok { s with ftsoManager := newManager }

/-- Storage after a transaction calling `updateFtsoRegistry`: on revert the
EVM rolls every write back, so the pre-state persists. -/
def runUpdateFtsoRegistry (s : OracleState) (caller newRegistry : Nat) :
    OracleState :=
  match updateFtsoRegistry s caller newRegistry with
  | .ok s' => s'
  | .error _ => s

/-- Storage after a transaction calling `updateFtsoManager`: on revert the
EVM rolls every write back, so the pre-state persists. -/
def runUpdateFtsoManager (s : OracleState) (caller newManager : Nat) :
    OracleState :=
  match updateFtsoManager s caller newManager with
  | .ok s' => s'
  | .error _ => s

/-- One external `updatePriceData(symbol)` call together with the values the
external collaborators supplied during it: the FTSO registry's
`(price, timestamp)`, the FTSO manager's epoch id, and `block.timestamp`. -/
structure InsertEvent where
  symbol : String
  price : Nat
  timestamp : Nat
  epochId : Nat
  now : Nat

/-- Replay a sequence of `updatePriceData` calls from a starting state. -/
def runInserts (s : OracleState) (events : List InsertEvent) : OracleState :=
  events.foldl
    (fun st e => updatePriceData st e.symbol e.price e.timestamp e.epochId e.now) s

lemma getD_length_sub_one {α} (l : List α) (d : α) :
    l.getD (l.length - 1) d = l.getLastD d := by
  rw [List.getD_eq_getElem?_getD, List.getLastD_eq_getLast?, List.getLast?_eq_getElem?]

lemma shiftLeft_cons (x : PriceData) (t : List PriceData) :
    shiftLeft (x :: t) = t ++ [t.getLastD x] := by
  induction t generalizing x with
  | nil => rfl
  | cons y rest ih =>
    rw [shiftLeft, ih, List.getLastD_cons]
    simp

lemma shiftLeft_dropLast (x : PriceData) (t : List PriceData) :
    (shiftLeft (x :: t)).dropLast = t := by
  rw [shiftLeft_cons]; exact List.dropLast_concat

def testState : OracleState :=
  { ftsoRegistry := 1, ftsoManager := 2, priceHistory := fun _ => [],
    lastUpdateTime := fun _ => 0, owner := 7 }

example : ((runInserts testState ((List.range 25).map fun i =>
    ⟨"XRP", i + 1, 100 * (i + 1), i + 1, 3600 * (i + 1)⟩)).priceHistory "XRP").map
    PriceData.price = (List.range 24).map (fun i => i + 2) := by decide

lemma updatePriceData_history_self (s : OracleState) (sym : String) (p t e n : Nat) :
    (updatePriceData s sym p t e n).priceHistory sym =
      (if MAX_HISTORY_LENGTH ≤ (s.priceHistory sym).length
       then (shiftLeft (s.priceHistory sym)).dropLast else s.priceHistory sym)
        ++ [⟨p, t, e⟩] := by
  simp [updatePriceData]

def state24 : OracleState :=
  { testState with priceHistory := fun sym =>
      if sym = "BTC" then (List.range 24).map (fun i => ⟨i + 1, 10 * i, i⟩) else [] }

def stateTwo (a b : Nat) : OracleState :=
  { testState with priceHistory := fun sym =>
      if sym = "XRP" then [⟨a, 1000, 1⟩, ⟨b, 2000, 2⟩] else [] }

def stateOne : OracleState :=
  { testState with priceHistory := fun sym =>
      if sym = "XRP" then [⟨5, 100, 1⟩] else [] }

/-- C1: for every sequence of insert (`updatePriceData`) calls on one symbol,
starting from the empty history, the length of that symbol's stored sample
sequence is at most 24 at all times (every intermediate state is reached by
some event-list prefix, which this statement, quantified over all event
lists, covers). -/
theorem history_length_le_24 (s0 : OracleState)
    (h0 : ∀ sym, s0.priceHistory sym = [])
    (events : List InsertEvent) (sym : String) :
    ((runInserts s0 events).priceHistory sym).length ≤ MAX_HISTORY_LENGTH := by
  have key : ∀ (evs : List InsertEvent) (s : OracleState),
      (∀ sym2, (s.priceHistory sym2).length ≤ MAX_HISTORY_LENGTH) →
      ∀ sym2, ((runInserts s evs).priceHistory sym2).length ≤ MAX_HISTORY_LENGTH := by
    intro evs
    induction evs with
    | nil => intro s hs sym2; exact hs sym2
    | cons e rest ih =>
      intro s hs sym2
      refine ih _ ?_ sym2
      intro sym3
      by_cases hcase : sym3 = e.symbol
      · rw [hcase, updatePriceData_history_self]
        by_cases hlen : MAX_HISTORY_LENGTH ≤ (s.priceHistory e.symbol).length
        · rw [if_pos hlen]
          cases hh : s.priceHistory e.symbol with
          | nil => rw [hh] at hlen; simp [MAX_HISTORY_LENGTH] at hlen
          | cons x tl =>
            have hsl := hs e.symbol
            rw [hh] at hsl
            rw [shiftLeft_dropLast]
            simpa using hsl
        · rw [if_neg hlen]
          push_neg at hlen
          simpa using hlen
      · simp only [updatePriceData]
        simp [hcase]
        exact hs sym3
  exact key events s0 (fun sym2 => by rw [h0 sym2]; simp) sym

/-- Witness for C1: thirty inserts on one symbol from the empty state leave
at most 24 samples. -/
theorem history_length_le_24_witness :
    ((runInserts testState ((List.range 30).map fun i =>
        ⟨"XRP", i + 1, 100 * i, i, 3600 * i⟩)).priceHistory "XRP").length
      ≤ MAX_HISTORY_LENGTH :=
  history_length_le_24 testState (fun _ => rfl) _ _

/-- C2: when a symbol's history already holds 24 samples, inserting a new
sample yields the previous `samples[1..24]` (the tail: a shift-left that
preserves insertion order, making the old second-oldest the new oldest)
followed by the new sample; concretely, inserting prices 1..25 leaves the
stored price sequence `[2, 3, ..., 25]`. -/
theorem evict_preserves_order :
    (∀ (s : OracleState) (sym : String) (p t e n : Nat),
        (s.priceHistory sym).length = MAX_HISTORY_LENGTH →
        (updatePriceData s sym p t e n).priceHistory sym =
          (s.priceHistory sym).tail ++ [⟨p, t, e⟩]) ∧
    ((runInserts testState ((List.range 25).map fun i =>
        ⟨"XRP", i + 1, 100 * (i + 1), i + 1, 3600 * (i + 1)⟩)).priceHistory "XRP").map
        PriceData.price = (List.range 24).map (fun i => i + 2) := by
  constructor
  · intro s sym p t e n hlen
    rw [updatePriceData_history_self, if_pos (le_of_eq hlen.symm)]
    cases hh : s.priceHistory sym with
    | nil => rw [hh] at hlen; simp [MAX_HISTORY_LENGTH] at hlen
    | cons x tl => rw [shiftLeft_dropLast, List.tail_cons]
  · decide

/-- Witness for C2: one insert into a concrete 24-sample history. -/
theorem evict_preserves_order_witness :
    (updatePriceData state24 "BTC" 99 777 25 3600).priceHistory "BTC" =
      (state24.priceHistory "BTC").tail ++ [⟨99, 777, 25⟩] :=
  evict_preserves_order.1 state24 "BTC" 99 777 25 3600 (by decide)

/-- C3 (code bug): with oldest price 100 and newest 110, `get24hPriceChange`
returns 1000 as claimed; but with oldest 100 and newest 90 it does NOT
return -1000: the subtraction `(currentPrice * 10000 / oldestPrice) - 10000`
is performed in checked `uint256` arithmetic *before* the `int256` cast, so
`9000 - 10000` underflows and the call reverts with Panic 0x11.  The
function's `int256` return type and its basis-points documentation show a
signed (negative-capable) result was intended. -/
theorem change_decrease_reverts :
    get24hPriceChange (stateTwo 100 110) "XRP" = .ok 1000 ∧
    get24hPriceChange (stateTwo 100 90) "XRP" = .error (.arithmeticError 17) := by
  constructor <;> rfl

/-- C4: for a symbol with at least 2 samples whose oldest sample has price 0,
`get24hPriceChange` returns 0 and never fails with a division error (the
zero-denominator guard runs before the division). -/
theorem change_zero_oldest (s : OracleState) (sym : String)
    (hlen : 1 < (s.priceHistory sym).length)
    (hzero : ((s.priceHistory sym).getD 0 ⟨0, 0, 0⟩).price = 0) :
    get24hPriceChange s sym = .ok 0 := by
  rw [List.getD_eq_getElem?_getD] at hzero
  simp [get24hPriceChange, hlen, hzero]

/-- Witness for C4: two samples with oldest price 0 yield 0. -/
theorem change_zero_oldest_witness :
    get24hPriceChange (stateTwo 0 110) "XRP" = .ok 0 :=
  change_zero_oldest (stateTwo 0 110) "XRP" (by decide) (by decide)

/-- Counterexample for C5: on a never-updated symbol (`lastUpdateTime`
defaults to 0) at `block.timestamp = 3599`, `needsUpdate` returns `false`,
refuting the claim that a never-updated symbol is unconditionally due
before any insert. -/
theorem needsUpdate_fresh_before_hour :
    needsUpdate testState "XRP" 3599 = .ok false := by rfl

/-- C5 (amended): `needsUpdate` returns `now - last_update >= 1 hour`
whenever `last_update <= now` (the unsigned subtraction reverts otherwise);
a never-updated symbol (`last_update = 0`) is due exactly when
`now >= 1 hour` — not unconditionally; immediately after an insert
performed at `now` the symbol is not due; and it is due again once
`now' - now >= 1 hour`. -/
theorem needsUpdate_spec :
    (∀ (s : OracleState) (sym : String) (now : Nat),
        s.lastUpdateTime sym ≤ now →
        needsUpdate s sym now = .ok (decide (3600 ≤ now - s.lastUpdateTime sym))) ∧
    (∀ (s : OracleState) (sym : String) (now : Nat),
        s.lastUpdateTime sym = 0 →
        (needsUpdate s sym now = .ok true ↔ 3600 ≤ now)) ∧
    (∀ (s : OracleState) (sym : String) (p t e now : Nat),
        needsUpdate (updatePriceData s sym p t e now) sym now = .ok false) ∧
    (∀ (s : OracleState) (sym : String) (p t e now nowLater : Nat),
        now ≤ nowLater → 3600 ≤ nowLater - now →
        needsUpdate (updatePriceData s sym p t e now) sym nowLater = .ok true) := by
  refine ⟨?_, ?_, ?_, ?_⟩
  · intro s sym now h
    simp [needsUpdate, checkedSub, h]
  · intro s sym now h
    simp [needsUpdate, checkedSub, h]
  · intro s sym p t e now
    simp [needsUpdate, updatePriceData, checkedSub]
  · intro s sym p t e now nowLater h1 h2
    simp [needsUpdate, updatePriceData, checkedSub, h1, h2]

/-- Witness for C5's amended theorem: a fresh symbol at `now = 7200` is due. -/
theorem needsUpdate_spec_witness :
    needsUpdate testState "XRP" 7200 =
      .ok (decide (3600 ≤ 7200 - testState.lastUpdateTime "XRP")) :=
  needsUpdate_spec.1 testState "XRP" 7200 (by decide)

/-- C6: `updateFtsoRegistry` and `updateFtsoManager` called by a non-owner
fail with the `Ownable` unauthorized revert and leave the stored reference
(indeed the whole storage) unchanged; called by the owner with the zero
address they fail with "Invalid address"; they succeed exactly when the
owner supplies a nonzero address, storing it. -/
theorem setter_access_control :
    (∀ (s : OracleState) (caller newRef : Nat), caller ≠ s.owner →
        updateFtsoRegistry s caller newRef =
          .error (.revert "Ownable: caller is not the owner") ∧
        runUpdateFtsoRegistry s caller newRef = s ∧
        updateFtsoManager s caller newRef =
          .error (.revert "Ownable: caller is not the owner") ∧
        runUpdateFtsoManager s caller newRef = s) ∧
    (∀ (s : OracleState),
        updateFtsoRegistry s s.owner 0 = .error (.revert "Invalid address") ∧
        updateFtsoManager s s.owner 0 = .error (.revert "Invalid address")) ∧
    (∀ (s : OracleState) (newRef : Nat), newRef ≠ 0 →
        updateFtsoRegistry s s.owner newRef = .ok { s with ftsoRegistry := newRef } ∧
        updateFtsoManager s s.owner newRef = .ok { s with ftsoManager := newRef }) := by
  refine ⟨?_, ?_, ?_⟩ <;> intros <;>
    simp_all [updateFtsoRegistry, updateFtsoManager,
      runUpdateFtsoRegistry, runUpdateFtsoManager]

/-- Witness for C6: caller 3 is not `testState`'s owner 7, so the registry
setter reverts. -/
theorem setter_access_control_witness :
    updateFtsoRegistry testState 3 42 =
      .error (.revert "Ownable: caller is not the owner") :=
  (setter_access_control.1 testState 3 42 (by decide)).1

/-- C7: `getLatestPriceData` on a symbol with no recorded samples (including
never-inserted symbols, whose mapping entry is the empty array) reverts
with "No price data available"; on a symbol with at least one sample it
returns the last (newest) stored sample's price, timestamp and epoch id. -/
theorem latest_read :
    (∀ (s : OracleState) (sym : String), s.priceHistory sym = [] →
        getLatestPriceData s sym = .error (.revert "No price data available")) ∧
    (∀ (s : OracleState) (sym : String), s.priceHistory sym ≠ [] →
        getLatestPriceData s sym =
          .ok (((s.priceHistory sym).getLastD ⟨0, 0, 0⟩).price,
               ((s.priceHistory sym).getLastD ⟨0, 0, 0⟩).timestamp,
               ((s.priceHistory sym).getLastD ⟨0, 0, 0⟩).epochId)) := by
  constructor
  · intro s sym h
    simp [getLatestPriceData, h]
  · intro s sym h
    have hpos : 0 < (s.priceHistory sym).length := List.length_pos.mpr h
    rw [← getD_length_sub_one]
    simp [getLatestPriceData, hpos]

/-- Witness for C7: the newest of two concrete samples is returned. -/
theorem latest_read_witness :
    getLatestPriceData (stateTwo 100 110) "XRP" =
      .ok ((((stateTwo 100 110).priceHistory "XRP").getLastD ⟨0, 0, 0⟩).price,
           (((stateTwo 100 110).priceHistory "XRP").getLastD ⟨0, 0, 0⟩).timestamp,
           (((stateTwo 100 110).priceHistory "XRP").getLastD ⟨0, 0, 0⟩).epochId) :=
  latest_read.2 (stateTwo 100 110) "XRP" (by decide)

/-- C8: `get24hPriceChange` on a symbol with fewer than 2 recorded samples
reverts with "Insufficient price history". -/
theorem change_insufficient_history (s : OracleState) (sym : String)
    (h : (s.priceHistory sym).length < 2) :
    get24hPriceChange s sym = .error (.revert "Insufficient price history") := by
  have h1 : ¬ 1 < (s.priceHistory sym).length := by omega
  simp [get24hPriceChange, h1]

/-- Witness for C8: a single-sample history reverts. -/
theorem change_insufficient_history_witness :
    get24hPriceChange stateOne "XRP" = .error (.revert "Insufficient price history") :=
  change_insufficient_history stateOne "XRP" (by decide)

/-- C9: `getPriceHistory` never reverts: it returns the symbol's stored
samples field-by-field in storage (oldest-to-newest) order, and an unknown
or never-inserted symbol yields the empty sequences. -/
theorem read_history_total :
    (∀ (s : OracleState) (sym : String),
        getPriceHistory s sym =
          ((s.priceHistory sym).map PriceData.price,
           (s.priceHistory sym).map PriceData.timestamp,
           (s.priceHistory sym).map PriceData.epochId)) ∧
    (∀ (s : OracleState) (sym : String), s.priceHistory sym = [] →
        getPriceHistory s sym = ([], [], [])) := by
  constructor
  · intro s sym; rfl
  · intro s sym h; simp [getPriceHistory, h]

/-- Witness for C9: an untouched symbol yields three empty arrays. -/
theorem read_history_total_witness :
    getPriceHistory testState "DOGE" = ([], [], []) :=
  read_history_total.2 testState "DOGE" rfl

/-- C10: an insert (`updatePriceData`) on one symbol leaves every other
symbol's stored history and last-update time unchanged. -/
theorem update_frame (s : OracleState) (sym otherSym : String) (p t e n : Nat)
    (h : otherSym ≠ sym) :
    (updatePriceData s sym p t e n).priceHistory otherSym = s.priceHistory otherSym ∧
    (updatePriceData s sym p t e n).lastUpdateTime otherSym = s.lastUpdateTime otherSym := by
  simp [updatePriceData, h]

/-- Witness for C10: an insert on "XRP" does not touch "BTC". -/
theorem update_frame_witness :
    (updatePriceData testState "XRP" 1 2 3 4).priceHistory "BTC" =
      testState.priceHistory "BTC" ∧
    (updatePriceData testState "XRP" 1 2 3 4).lastUpdateTime "BTC" =
      testState.lastUpdateTime "BTC" :=
  update_frame testState "XRP" "BTC" 1 2 3 4 (by decide)
